import Mathlib

/-
Verification of the query-repair core of Dynamic-SQL-Assistant
(src/Dynamic_SQL_Assistant/utils/database.py).

Shallow embedding conventions:
* Python strings are Lean `String`s, manipulated through their underlying
  `List Char` (`String.data` / `String.mk`).
* Python's character classification and case methods (`str.isalnum`,
  `str.isdigit`, `str.lower`) consult the Unicode database.  The embedding
  carries them exactly on the ASCII range and on every non-ASCII code point
  this development exercises ('\u00C9', '\u00E9', '\u0130', U+0307,
  '\u0663'); the finitely presented defaults chosen for the remaining code
  points are documented at each definition, and no theorem depends on them:
  the sanitizer theorems that need the full Unicode tables are stated for
  ASCII inputs, where the embedding is exact.  Lowercasing is string-valued
  (one character to possibly several), as Unicode full case mapping
  requires.
* Python exceptions are modelled by `Option`/`Except` results.  An operation
  that Python aborts with an uncaught exception returns `none` / `.error`.
* The external relational engine (sqlite3/pandas, an external collaborator
  per the spec) is a parameter of the embedding: an arbitrary function from
  a query string and a connection to either a result or an error message.
-/

/-- The `[0-9]` test: Python `str.isdigit` on the ASCII range. -/
def ascii_isdigit (c : Char) : Bool := '0' ≤ c && c ≤ '9'

/-- The `[A-Z]` test, used by the ASCII branch of the lowercase fold. -/
def ascii_isupper (c : Char) : Bool := 'A' ≤ c && c ≤ 'Z'

/-- The `[A-Za-z]` test: Python `str.isalpha` on the ASCII range. -/
def ascii_isalpha (c : Char) : Bool := ascii_isupper c || ('a' ≤ c && c ≤ 'z')

/-- Python `str.isdigit`.  Exact on the ASCII range and on the non-ASCII code
points this development exercises: '\u0663' (ARABIC-INDIC DIGIT THREE) is a
digit.  Code points outside this repertoire default to non-digits; the
finitely many other Unicode `Nd` digits behave like '\u0663' and are not
separately listed. -/
def py_isdigit (c : Char) : Bool := ascii_isdigit c || c = '\u0663'

/-- Python `str.isalnum`.  Exact on the ASCII range (letters and digits) and
on the non-ASCII code points this development exercises: '\u00C9', '\u00E9',
'\u0130' and '\u0663' are alphanumeric, the combining dot above (U+0307) is
not.  Unlisted non-ASCII code points default to alphanumeric, as the bulk of
Unicode code points appearing in CSV headers are letters; no theorem below
depends on that default. -/
def py_isalnum (c : Char) : Bool :=
  if c.toNat ≤ 127 then ascii_isalpha c || ascii_isdigit c
  else c != '\u0307'

/-- The ASCII lowercase fold: `'A'..'Z'` to `'a'..'z'`, identity elsewhere. -/
def ascii_tolower (c : Char) : Char :=
  if ascii_isupper c then Char.ofNat (c.toNat + 32) else c

/-- Python `str.lower` on one character.  String-valued because Unicode full
case mapping is one-to-many: '\u0130' (LATIN CAPITAL LETTER I WITH DOT ABOVE)
lowercases to "i\u0307".  Exact on the ASCII range and on the non-ASCII code
points this development exercises ('\u00C9' to "\u00E9", '\u0130' to
"i\u0307"; '\u00E9', '\u0663' and U+0307 are case-fixed); unlisted
non-ASCII code points default to case-fixed, and no theorem below depends on
that default. -/
def py_lower_char (c : Char) : List Char :=
  if c = '\u00C9' then ['\u00E9']
  else if c = '\u0130' then ['i', '\u0307']
  else [ascii_tolower c]

/-- Python `str.lower` on a whole string. -/
def py_lower (s : String) : String := String.mk (s.data.flatMap py_lower_char)

/-- database.py line 41, `clean_name = name.replace(' ', '_')`:
a single-character replace is a per-character map. -/
def replace_spaces (cs : List Char) : List Char :=
  cs.map (fun c => if c = ' ' then '_' else c)

/-- database.py line 44,
`clean_name = ''.join(c if c.isalnum() or c == '_' else '_' for c in clean_name)`. -/
def keep_alnum (cs : List Char) : List Char :=
  cs.map (fun c => if py_isalnum c || c = '_' then c else '_')

/-- The two substitution passes of `clean_column_name` (lines 41 and 44). -/
def py_clean_chars (cs : List Char) : List Char := keep_alnum (replace_spaces cs)

/-- Lines 46-50 of `clean_column_name`, after the substitution passes:
prepend `col_` when the first character is a digit, then lowercase.
Total on character lists; the `[]` branch is never reached from a non-empty
input because the substitution passes preserve length. -/
def clean_core (cs : List Char) : List Char :=
  match py_clean_chars cs with
  | [] => []
  | c :: rest =>
      ((if py_isdigit c then "col_".data else []) ++ (c :: rest)).flatMap py_lower_char

/-- `clean_column_name` (database.py lines 30-50).  Returns `none` exactly when
Python raises `IndexError` at the `clean_name[0]` digit check, i.e. on the
empty input string. -/
def clean_column_name (name : String) : Option String :=
  if py_clean_chars name.data = [] then none
  else some (String.mk (clean_core name.data))

/-- The value `clean_column_name` produces on every input it does not abort on;
`execute_query`'s repair strategy 2 only ever calls it on column names
containing a space, which are non-empty. -/
def clean_column_name_total (name : String) : String := String.mk (clean_core name.data)

/-- A character allowed by the regular expression `^[a-z0-9_]+$`. -/
def sanitized_char (c : Char) : Bool := ('a' ≤ c && c ≤ 'z') || ascii_isdigit c || c = '_'

-- ## The relational store, the external engine, and execute_query

/-- The single in-memory table: its ordered (sanitized) column names and its
row data.  Cells are modelled as strings; the cell representation is
irrelevant to every claim. -/
structure Relation where
  cols : List String
  rows : List (List String)
deriving Repr, DecidableEq

/-- An sqlite3 connection: it holds the one table, which every caller in the
repository names `data`. -/
structure Conn where
  rel : Relation
deriving Repr, DecidableEq

/-- Python's `needle in haystack` substring test, on character lists. -/
def list_has_sub (needle : List Char) : List Char → Bool
  | [] => needle.isPrefixOf []
  | c :: rest => needle.isPrefixOf (c :: rest) || list_has_sub needle rest

/-- Python's `needle in haystack` substring test, on strings. -/
def str_contains_sub (haystack needle : String) : Bool :=
  list_has_sub needle.data haystack.data

/-- Scanner for Python's `str.replace`: scan left to right, replacing
non-overlapping occurrences of `pat`.  The fuel argument starts at the length
of the scanned list; a match consumes at least one character (`pat` is
non-empty at every call site), so the fuel never runs out. -/
def replace_go (pat rep : List Char) : Nat → List Char → List Char
  | _, [] => []
  | 0, s => s
  | fuel + 1, c :: cs =>
      if pat.isPrefixOf (c :: cs) then
        rep ++ replace_go pat rep fuel ((c :: cs).drop pat.length)
      else c :: replace_go pat rep fuel cs

/-- Python `s.replace(pat, rep)`.  Every call site in database.py passes a
non-empty literal pattern; the empty-pattern guard is never exercised. -/
def py_replace (s pat rep : String) : String :=
  if pat.data = [] then s
  else String.mk (replace_go pat.data rep.data s.data.length s.data)

/-- The outcome of a Python call: a value, or an uncaught exception. -/
inductive PyError where
  | exception (msg : String)
  | unboundLocal (var : String)
deriving Repr, DecidableEq

/-- The external relational engine (`pd.read_sql_query` against the sqlite3
connection): an arbitrary function from the query text and the connection to
either result rows or an error message.  sqlite3/pandas are external
collaborators (spec 6), so the embedding quantifies over all engines. -/
def Engine (α : Type) : Type := String → Conn → Except String α

/-- `', '.join(columns)` (database.py line 106). -/
def py_join (sep : String) : List String → String
  | [] => ""
  | [s] => s
  | s :: rest => s ++ sep ++ py_join sep rest

/-- The message of the final `raise` at database.py line 106, in the branch
where `actual_columns` is bound. -/
def final_error_msg (e : String) (cols : List String) : String :=
  "Query error: " ++ e ++ "\n\nAvailable columns: " ++ py_join ", " cols

/-- Repair strategy 2 (database.py lines 85-93): for each actual column that
contains a space, run the query with `"col"` replaced by the cleaned column
name; first success wins.  `clean_column_name` cannot abort here because a
column containing a space is non-empty, so the total variant is its value. -/
def try_space_cols {α : Type} (run : Engine α) (conn : Conn) (query : String) :
    List String → Option α
  | [] => none
  | col :: rest =>
      if str_contains_sub col " " then
        match run (py_replace query ("\"" ++ col ++ "\"") (clean_column_name_total col)) conn with
        | .ok res => some res
        | .error _ => try_space_cols run conn query rest
      else try_space_cols run conn query rest

/-- Repair strategy 3 (database.py lines 96-103): for each actual column whose
lowercasing contains both "raw" and "predict", run the query with the literal
token `"raw predicted"` replaced by that column in double quotes. -/
def try_raw_predict {α : Type} (run : Engine α) (conn : Conn) (query : String) :
    List String → Option α
  | [] => none
  | col :: rest =>
      if str_contains_sub (py_lower col) "raw" && str_contains_sub (py_lower col) "predict" then
        match run (py_replace query "\"raw predicted\"" ("\"" ++ col ++ "\"")) conn with
        | .ok res => some res
        | .error _ => try_raw_predict run conn query rest
      else try_raw_predict run conn query rest

/-- `execute_query` (database.py lines 52-106), parameterized by the external
engine.  Line 73's `pragma_table_info('data')` read is `conn.rel.cols`.  The
final `else` models the slip at line 106: when the error does not mention
"no such column", the local `actual_columns` was never assigned, so the
`raise` statement itself raises `UnboundLocalError` and the original error
text is lost. -/
def execute_query {α : Type} (run : Engine α) (conn : Conn) (query : String) :
    Except PyError α :=
  match run query conn with
  | .ok res => .ok res
  | .error e =>
      if str_contains_sub (py_lower e) "no such column" then
        match run (py_replace query "\"" "`") conn with
        | .ok res => .ok res
        | .error _ =>
            match try_space_cols run conn query conn.rel.cols with
            | some res => .ok res
            | none =>
                match try_raw_predict run conn query conn.rel.cols with
                | some res => .ok res
                | none => .error (.exception (final_error_msg e conn.rel.cols))
      else .error (.unboundLocal "actual_columns")

-- ## Stateful variant: the connection threaded through every engine call

/-- A possibly state-changing engine: each call returns its outcome and the
connection state after the call. -/
def EngineSt (α : Type) : Type := String → Conn → Except String α × Conn

/-- The engine only ever reads: every call leaves the connection unchanged.
This is the semantics of the SELECT / pragma reads the repository issues. -/
def read_only_engine {α : Type} (runst : EngineSt α) : Prop :=
  ∀ q conn, (runst q conn).2 = conn

/-- Stateful form of repair strategy 2. -/
def try_space_cols_st {α : Type} (runst : EngineSt α) (query : String) :
    List String → Conn → Option α × Conn
  | [], conn => (none, conn)
  | col :: rest, conn =>
      if str_contains_sub col " " then
        match runst (py_replace query ("\"" ++ col ++ "\"") (clean_column_name_total col)) conn with
        | (.ok res, conn1) => (some res, conn1)
        | (.error _, conn1) => try_space_cols_st runst query rest conn1
      else try_space_cols_st runst query rest conn

/-- Stateful form of repair strategy 3. -/
def try_raw_predict_st {α : Type} (runst : EngineSt α) (query : String) :
    List String → Conn → Option α × Conn
  | [], conn => (none, conn)
  | col :: rest, conn =>
      if str_contains_sub (py_lower col) "raw" && str_contains_sub (py_lower col) "predict" then
        match runst (py_replace query "\"raw predicted\"" ("\"" ++ col ++ "\"")) conn with
        | (.ok res, conn1) => (some res, conn1)
        | (.error _, conn1) => try_raw_predict_st runst query rest conn1
      else try_raw_predict_st runst query rest conn

/-- `execute_query` with the connection explicitly threaded through every
engine call, exactly in the order the source performs them. -/
def execute_query_st {α : Type} (runst : EngineSt α) (conn : Conn) (query : String) :
    Except PyError α × Conn :=
  match runst query conn with
  | (.ok res, conn1) => (.ok res, conn1)
  | (.error e, conn1) =>
      if str_contains_sub (py_lower e) "no such column" then
        match runst (py_replace query "\"" "`") conn1 with
        | (.ok res, conn2) => (.ok res, conn2)
        | (.error _, conn2) =>
            match try_space_cols_st runst query conn1.rel.cols conn2 with
            | (some res, conn3) => (.ok res, conn3)
            | (none, conn3) =>
                match try_raw_predict_st runst query conn1.rel.cols conn3 with
                | (some res, conn4) => (.ok res, conn4)
                | (none, conn4) =>
                    (.error (.exception (final_error_msg e conn1.rel.cols)), conn4)
      else (.error (.unboundLocal "actual_columns"), conn1)

-- ## The schema loader

/-- A parsed CSV: the header row and the data rows, as produced by
`pd.read_csv`.  File I/O and CSV parsing are outside the embedding. -/
structure Csv where
  headers : List String
  rows : List (List String)
deriving Repr, DecidableEq

/-- `create_database_from_csv` (database.py lines 5-28): sanitize every header
in order, materialize the table under the caller-chosen name (`data`
everywhere in the repository).  `none` models the `IndexError` escaping from
`clean_column_name` when some header is empty. -/
def create_database_from_csv (csv : Csv) : Option Conn :=
  match csv.headers.mapM clean_column_name with
  | none => none
  | some cols => some ⟨⟨cols, csv.rows⟩⟩

/-- The raw-to-sanitized column-name association of a load
(spec 3, ColumnNameMapping). -/
def column_mapping (csv : Csv) : Option (List (String × String)) :=
  match csv.headers.mapM clean_column_name with
  | none => none
  | some cols => some (csv.headers.zip cols)

-- ## Spec-side description of the repair sequence (claim C1 wording)

/-- Modelled from the spec (claim C1): the ordered list of rewritten queries
the repair engine attempts after a column-resolution failure — first the
backtick rewrite, then one rewrite per stored column containing a space, then
one rewrite per raw/predict column. -/
def repair_candidates (cols : List String) (query : String) : List String :=
  [py_replace query "\"" "`"]
    ++ (cols.filter (fun col => str_contains_sub col " ")).map
        (fun col => py_replace query ("\"" ++ col ++ "\"") (clean_column_name_total col))
    ++ (cols.filter (fun col =>
          str_contains_sub (py_lower col) "raw" &&
            str_contains_sub (py_lower col) "predict")).map
        (fun col => py_replace query "\"raw predicted\"" ("\"" ++ col ++ "\""))

/-- The first successful execution over a list of candidate queries. -/
def first_success {α : Type} (run : Engine α) (conn : Conn) : List String → Option α
  | [] => none
  | q :: qs =>
      match run q conn with
      | .ok res => some res
      | .error _ => first_success run conn qs

-- ## Concrete engine instances for concrete runs

/-- Strip one layer of double-quote or backtick wrapping from an identifier. -/
def unquote_id (cs : List Char) : List Char :=
  if 2 ≤ cs.length ∧ (cs.head? = some '"' ∧ cs.getLast? = some '"'
      ∨ cs.head? = some '`' ∧ cs.getLast? = some '`') then
    (cs.drop 1).dropLast
  else cs

/-- Recognize `SELECT <colspec> FROM data` and return the colspec. -/
def parse_select (q : String) : Option String :=
  if "SELECT ".data.isPrefixOf q.data ∧ " FROM data".data.isSuffixOf q.data
      ∧ 17 ≤ q.data.length then
    some (String.mk ((q.data.drop 7).take (q.data.length - 17)))
  else none

/-- A toy instance of the external engine, used only to run the embedding on
concrete inputs: it understands `SELECT <id> FROM data` with the identifier
bare, double-quoted, or backtick-quoted, resolves the identifier strictly
against the table's columns, and answers with the values of that column, or a
`no such column` failure.  (sqlite's double-quoted string-literal fallback is
deliberately not part of this instance.) -/
def mini_run : Engine (List String) := fun q conn =>
  match parse_select q with
  | none => .error "unsupported query"
  | some colspec =>
      match conn.rel.cols.findIdx? (fun c => c == String.mk (unquote_id colspec.data)) with
      | some i => .ok (conn.rel.rows.map (fun row => row.getD i ""))
      | none => .error ("no such column: " ++ String.mk (unquote_id colspec.data))

/-- An engine instance whose every call fails with a non-column error. -/
def syntax_error_engine : Engine Nat := fun _ _ =>
  .error "Execution failed on sql: near \"SELEC\": syntax error"

/-- An engine instance whose every call fails with a column-resolution error. -/
def always_missing_engine : Engine Nat := fun _ _ =>
  .error "no such column: zzz"

/-- A read-only stateful engine instance. -/
def ro_engine : EngineSt Nat := fun _ conn => (.error "no such column: zzz", conn)

/-- The Titanic-style fixture of the spec: one raw header with a space. -/
def titanic_csv : Csv := ⟨["Passenger Class"], [["1"], ["3"], ["2"]]⟩

/-- The connection `create_database_from_csv` builds from `titanic_csv`. -/
def titanic_conn : Conn := ⟨⟨["passenger_class"], [["1"], ["3"], ["2"]]⟩⟩

-- ## Character-level lemmas

theorem char_le_iff_toNat (a b : Char) : a ≤ b ↔ a.toNat ≤ b.toNat := Iff.rfl

theorem char_toNat_ofNat (n : Nat) (h : n.isValidChar) : (Char.ofNat n).toNat = n := by
  simp [Char.ofNat, h, Char.ofNatAux, Char.toNat]
  rfl

theorem char_eq_iff_toNat (a b : Char) : a = b ↔ a.toNat = b.toNat := by
  constructor
  · intro h; rw [h]
  · intro h
    apply Char.ext
    apply UInt32.ext
    simpa [Char.toNat] using h

theorem toNat_lit_space : (' ' : Char).toNat = 32 := rfl

theorem toNat_lit_uscore : ('_' : Char).toNat = 95 := rfl

theorem toNat_lit_d0 : ('0' : Char).toNat = 48 := rfl

theorem toNat_lit_d9 : ('9' : Char).toNat = 57 := rfl

theorem toNat_lit_la : ('a' : Char).toNat = 97 := rfl

theorem toNat_lit_lz : ('z' : Char).toNat = 122 := rfl

theorem toNat_lit_uA : ('A' : Char).toNat = 65 := rfl

theorem toNat_lit_uZ : ('Z' : Char).toNat = 90 := rfl

theorem toNat_lit_Eacute : ('\u00C9' : Char).toNat = 201 := rfl

theorem toNat_lit_idotted : ('\u0130' : Char).toNat = 304 := rfl

theorem toNat_lit_combdot : ('\u0307' : Char).toNat = 775 := rfl

theorem toNat_lit_arabic3 : ('\u0663' : Char).toNat = 1635 := rfl

theorem ascii_isupper_iff (c : Char) :
    ascii_isupper c = true ↔ (65 ≤ c.toNat ∧ c.toNat ≤ 90) := by
  simp [ascii_isupper, char_le_iff_toNat, toNat_lit_uA, toNat_lit_uZ]

theorem ascii_isdigit_iff (c : Char) :
    ascii_isdigit c = true ↔ (48 ≤ c.toNat ∧ c.toNat ≤ 57) := by
  simp [ascii_isdigit, char_le_iff_toNat, toNat_lit_d0, toNat_lit_d9]

theorem py_isdigit_iff (c : Char) :
    py_isdigit c = true ↔ ((48 ≤ c.toNat ∧ c.toNat ≤ 57) ∨ c.toNat = 1635) := by
  simp [py_isdigit, ascii_isdigit_iff, char_eq_iff_toNat, toNat_lit_arabic3]

theorem py_isalnum_ascii (c : Char) (h : c.toNat ≤ 127) :
    py_isalnum c = (ascii_isalpha c || ascii_isdigit c) := by
  unfold py_isalnum
  rw [if_pos h]

theorem sanitized_char_iff (c : Char) :
    sanitized_char c = true ↔
      ((97 ≤ c.toNat ∧ c.toNat ≤ 122) ∨ (48 ≤ c.toNat ∧ c.toNat ≤ 57) ∨ c.toNat = 95) := by
  simp [sanitized_char, ascii_isdigit_iff, char_le_iff_toNat, char_eq_iff_toNat,
    toNat_lit_la, toNat_lit_lz, toNat_lit_uscore]
  tauto

theorem ascii_tolower_toNat_of_upper (c : Char) (hu : ascii_isupper c = true) :
    (ascii_tolower c).toNat = c.toNat + 32 := by
  have hn := (ascii_isupper_iff c).mp hu
  have hv : (c.toNat + 32).isValidChar := by
    unfold Nat.isValidChar
    omega
  simp [ascii_tolower, hu, char_toNat_ofNat _ hv]

theorem ascii_tolower_eq_of_not_upper (c : Char) (hu : ascii_isupper c = false) :
    ascii_tolower c = c := by
  simp [ascii_tolower, hu]

/-- On the ASCII range, Python lowercasing is the one-to-one ASCII fold. -/
theorem py_lower_char_ascii (c : Char) (h : c.toNat ≤ 127) :
    py_lower_char c = [ascii_tolower c] := by
  have h1 : ¬ c = '\u00C9' := by
    rw [char_eq_iff_toNat, toNat_lit_Eacute]
    omega
  have h2 : ¬ c = '\u0130' := by
    rw [char_eq_iff_toNat, toNat_lit_idotted]
    omega
  simp [py_lower_char, h1, h2]

/-- An ASCII character kept by the alnum-or-underscore filter becomes a
`[a-z0-9_]` character after the ASCII lowercase fold. -/
theorem sanitized_of_tolower (c : Char) (hascii : c.toNat ≤ 127)
    (h : py_isalnum c || c = '_') :
    sanitized_char (ascii_tolower c) = true := by
  rw [py_isalnum_ascii c hascii] at h
  rcases hu : ascii_isupper c with hf | ht
  · have hn : ¬ (65 ≤ c.toNat ∧ c.toNat ≤ 90) := by
      intro hcontra
      simp [(ascii_isupper_iff c).mpr hcontra] at hu
    have hlow := ascii_tolower_eq_of_not_upper c hu
    rw [hlow, sanitized_char_iff]
    simp only [ascii_isalpha, Bool.or_eq_true, Bool.and_eq_true,
      decide_eq_true_eq, char_le_iff_toNat, char_eq_iff_toNat, ascii_isupper_iff,
      ascii_isdigit_iff, toNat_lit_la, toNat_lit_lz, toNat_lit_uscore] at h
    omega
  · have hn := (ascii_isupper_iff c).mp hu
    rw [sanitized_char_iff, ascii_tolower_toNat_of_upper c hu]
    omega

theorem py_isdigit_tolower (c : Char) : py_isdigit (ascii_tolower c) = py_isdigit c := by
  rcases hu : ascii_isupper c with hf | ht
  · rw [ascii_tolower_eq_of_not_upper c hu]
  · have hn := (ascii_isupper_iff c).mp hu
    have h1 : py_isdigit (ascii_tolower c) = false := by
      rw [Bool.eq_false_iff]
      intro hcontra
      have hd := (py_isdigit_iff _).mp hcontra
      rw [ascii_tolower_toNat_of_upper c hu] at hd
      omega
    have h2 : py_isdigit c = false := by
      rw [Bool.eq_false_iff]
      intro hcontra
      have hd := (py_isdigit_iff _).mp hcontra
      omega
    rw [h1, h2]

theorem sanitized_imp_keepable (c : Char) (h : sanitized_char c = true) :
    (py_isalnum c || c = '_') = true := by
  have hr := (sanitized_char_iff c).mp h
  have hascii : c.toNat ≤ 127 := by omega
  rw [py_isalnum_ascii c hascii]
  simp only [ascii_isalpha, Bool.or_eq_true, Bool.and_eq_true,
    decide_eq_true_eq, char_le_iff_toNat, char_eq_iff_toNat, ascii_isupper_iff,
    ascii_isdigit_iff, toNat_lit_la, toNat_lit_lz, toNat_lit_uscore]
  omega

theorem sanitized_ne_space (c : Char) (h : sanitized_char c = true) : c ≠ ' ' := by
  have hr := (sanitized_char_iff c).mp h
  rw [Ne, char_eq_iff_toNat, toNat_lit_space]
  omega

theorem sanitized_tolower_fixes (c : Char) (h : sanitized_char c = true) :
    ascii_tolower c = c := by
  have hr := (sanitized_char_iff c).mp h
  apply ascii_tolower_eq_of_not_upper
  rw [Bool.eq_false_iff]
  intro hcontra
  have hup := (ascii_isupper_iff c).mp hcontra
  omega

/-- A `[a-z0-9_]` character is fixed by Python lowercasing. -/
theorem sanitized_lower_fixes (c : Char) (h : sanitized_char c = true) :
    py_lower_char c = [c] := by
  have hr := (sanitized_char_iff c).mp h
  have hascii : c.toNat ≤ 127 := by omega
  rw [py_lower_char_ascii c hascii, sanitized_tolower_fixes c h]

theorem py_lower_char_ne_nil (c : Char) : py_lower_char c ≠ [] := by
  by_cases h1 : c = '\u00C9'
  · simp [py_lower_char, h1]
  · by_cases h2 : c = '\u0130'
    · simp [py_lower_char, h1, h2]
    · simp [py_lower_char, h1, h2]

/-- Lowercasing never introduces a space. -/
theorem py_lower_char_no_space (c : Char) (h : c ≠ ' ') :
    ∀ d ∈ py_lower_char c, d ≠ ' ' := by
  by_cases h1 : c = '\u00C9'
  · intro d hd
    simp [py_lower_char, h1] at hd
    rw [hd]
    decide
  · by_cases h2 : c = '\u0130'
    · intro d hd
      simp [py_lower_char, h1, h2] at hd
      rcases hd with hd | hd <;> rw [hd] <;> decide
    · intro d hd
      simp [py_lower_char, h1, h2] at hd
      rw [hd]
      rcases hu : ascii_isupper c with hf | ht
      · rw [ascii_tolower_eq_of_not_upper c hu]
        exact h
      · rw [Ne, char_eq_iff_toNat, toNat_lit_space, ascii_tolower_toNat_of_upper c hu]
        have hn := (ascii_isupper_iff c).mp hu
        omega

/-- Lowercasing a non-digit yields a non-digit first character. -/
theorem py_lower_char_head_not_digit (c : Char) (h : py_isdigit c = false) :
    ∀ d, (py_lower_char c).head? = some d → py_isdigit d = false := by
  by_cases h1 : c = '\u00C9'
  · intro d hd
    simp [py_lower_char, h1] at hd
    rw [← hd]
    decide
  · by_cases h2 : c = '\u0130'
    · intro d hd
      simp [py_lower_char, h1, h2] at hd
      rw [← hd]
      decide
    · intro d hd
      simp [py_lower_char, h1, h2] at hd
      rw [← hd, py_isdigit_tolower]
      exact h

theorem list_bind_fix {α : Type} (f : α → List α) (l : List α) (h : ∀ c ∈ l, f c = [c]) :
    l.flatMap f = l := by
  induction l with
  | nil => rfl
  | cons c rest ih =>
      rw [List.flatMap_cons, h c (List.mem_cons_self c rest),
        ih (fun d hd => h d (List.mem_cons_of_mem c hd))]
      rfl

/-- On ASCII character lists, the string-valued lowercasing is the per-character
ASCII fold. -/
theorem list_bind_lower_ascii (l : List Char) (h : ∀ c ∈ l, c.toNat ≤ 127) :
    l.flatMap py_lower_char = l.map ascii_tolower := by
  induction l with
  | nil => rfl
  | cons c rest ih =>
      rw [List.flatMap_cons, py_lower_char_ascii c (h c (List.mem_cons_self c rest)),
        List.map_cons, ih (fun d hd => h d (List.mem_cons_of_mem c hd))]
      rfl

theorem head_append_of_ne_nil {α : Type} (l t : List α) (h : l ≠ []) :
    (l ++ t).head? = l.head? := by
  cases l with
  | nil => exact absurd rfl h
  | cons c rest => rfl

-- ## Lemmas about the substitution passes

theorem py_clean_chars_length (cs : List Char) : (py_clean_chars cs).length = cs.length := by
  simp [py_clean_chars, keep_alnum, replace_spaces]

theorem py_clean_chars_keepable (cs : List Char) :
    ∀ c ∈ py_clean_chars cs, (py_isalnum c || c = '_') = true := by
  intro c hc
  simp only [py_clean_chars, keep_alnum, List.mem_map] at hc
  obtain ⟨d, _, hd⟩ := hc
  rcases hcond : (py_isalnum d || d = '_') with hf | ht
  · rw [hcond] at hd
    simp at hd
    rw [← hd]
    decide
  · rw [hcond] at hd
    simp at hd
    rw [← hd]
    exact hcond

theorem py_clean_chars_ascii (cs : List Char) (hascii : ∀ c ∈ cs, c.toNat ≤ 127) :
    ∀ c ∈ py_clean_chars cs, c.toNat ≤ 127 := by
  intro c hc
  simp only [py_clean_chars, keep_alnum, List.mem_map] at hc
  obtain ⟨d, hdmem, hd⟩ := hc
  have hd127 : d.toNat ≤ 127 := by
    simp only [replace_spaces, List.mem_map] at hdmem
    obtain ⟨e, hemem, he⟩ := hdmem
    by_cases hsp : e = ' '
    · rw [← he, if_pos hsp]
      decide
    · rw [← he, if_neg hsp]
      exact hascii e hemem
  rcases hcond : (py_isalnum d || d = '_') with hf | ht
  · rw [hcond] at hd
    simp at hd
    rw [← hd]
    decide
  · rw [hcond] at hd
    simp at hd
    rw [← hd]
    exact hd127

theorem py_clean_chars_no_space (cs : List Char) :
    ∀ c ∈ py_clean_chars cs, c ≠ ' ' := by
  intro c hc
  simp only [py_clean_chars, keep_alnum, List.mem_map] at hc
  obtain ⟨d, hdmem, hd⟩ := hc
  have hdne : d ≠ ' ' := by
    simp only [replace_spaces, List.mem_map] at hdmem
    obtain ⟨e, _, he⟩ := hdmem
    by_cases hsp : e = ' '
    · rw [← he, if_pos hsp]
      decide
    · rw [← he, if_neg hsp]
      exact hsp
  rcases hcond : (py_isalnum d || d = '_') with hf | ht
  · rw [hcond] at hd
    simp at hd
    rw [← hd]
    decide
  · rw [hcond] at hd
    simp at hd
    rw [← hd]
    exact hdne

theorem clean_core_eq_of_split (cs : List Char) (c0 : Char) (rest : List Char)
    (hsplit : py_clean_chars cs = c0 :: rest) :
    clean_core cs =
      ((if py_isdigit c0 then "col_".data else []) ++ (c0 :: rest)).flatMap py_lower_char := by
  unfold clean_core
  rw [hsplit]

theorem clean_core_sanitized (cs : List Char) (hascii : ∀ c ∈ cs, c.toNat ≤ 127) :
    ∀ c ∈ clean_core cs, sanitized_char c = true := by
  intro c hc
  rcases hsplit : py_clean_chars cs with _ | ⟨c0, rest⟩
  · unfold clean_core at hc
    rw [hsplit] at hc
    simp at hc
  · rw [clean_core_eq_of_split cs c0 rest hsplit] at hc
    rw [List.mem_flatMap] at hc
    obtain ⟨a, ha, hca⟩ := hc
    rcases List.mem_append.mp ha with hpre | hmain
    · have hcol : ∀ a ∈ "col_".data, ∀ c ∈ py_lower_char a, sanitized_char c = true := by
        decide
      rcases hdig : py_isdigit c0 with hf | ht
      · rw [hdig, if_neg Bool.false_ne_true] at hpre
        simp at hpre
      · rw [hdig, if_pos rfl] at hpre
        exact hcol a hpre c hca
    · have hmem : a ∈ py_clean_chars cs := by
        rw [hsplit]
        exact hmain
      have ha127 : a.toNat ≤ 127 := py_clean_chars_ascii cs hascii a hmem
      have hkeep := py_clean_chars_keepable cs a hmem
      rw [py_lower_char_ascii a ha127] at hca
      simp at hca
      rw [hca]
      exact sanitized_of_tolower a ha127 hkeep

theorem clean_core_no_space (cs : List Char) : ∀ d ∈ clean_core cs, d ≠ ' ' := by
  intro d hd
  rcases hsplit : py_clean_chars cs with _ | ⟨c0, rest⟩
  · unfold clean_core at hd
    rw [hsplit] at hd
    simp at hd
  · rw [clean_core_eq_of_split cs c0 rest hsplit] at hd
    rw [List.mem_flatMap] at hd
    obtain ⟨a, ha, hda⟩ := hd
    rcases List.mem_append.mp ha with hpre | hmain
    · have hcol : ∀ a ∈ "col_".data, ∀ d ∈ py_lower_char a, d ≠ ' ' := by decide
      rcases hdig : py_isdigit c0 with hf | ht
      · rw [hdig, if_neg Bool.false_ne_true] at hpre
        simp at hpre
      · rw [hdig, if_pos rfl] at hpre
        exact hcol a hpre d hda
    · have hmem : a ∈ py_clean_chars cs := by
        rw [hsplit]
        exact hmain
      exact py_lower_char_no_space a (py_clean_chars_no_space cs a hmem) d hda

theorem list_map_fix {α : Type} (f : α → α) (cs : List α) (h : ∀ c ∈ cs, f c = c) :
    cs.map f = cs := by
  induction cs with
  | nil => rfl
  | cons c rest ih =>
      simp only [List.map_cons, List.cons.injEq]
      constructor
      · exact h c (List.mem_cons_self c rest)
      · exact ih (fun d hd => h d (List.mem_cons_of_mem c hd))

theorem py_clean_chars_fixes (cs : List Char) (h : ∀ c ∈ cs, sanitized_char c = true) :
    py_clean_chars cs = cs := by
  unfold py_clean_chars
  have h1 : replace_spaces cs = cs := by
    apply list_map_fix
    intro c hc
    simp [sanitized_ne_space c (h c hc)]
  rw [h1]
  apply list_map_fix
  intro c hc
  simp [sanitized_imp_keepable c (h c hc)]

theorem clean_core_ne_nil (cs : List Char) (h : cs ≠ []) : clean_core cs ≠ [] := by
  have hlen : (py_clean_chars cs).length = cs.length := py_clean_chars_length cs
  have hne : py_clean_chars cs ≠ [] := by
    intro hcontra
    rw [hcontra] at hlen
    exact h (List.eq_nil_of_length_eq_zero hlen.symm)
  rcases hsplit : py_clean_chars cs with _ | ⟨c0, rest⟩
  · exact absurd hsplit hne
  · rw [clean_core_eq_of_split cs c0 rest hsplit, List.flatMap_append, List.flatMap_cons]
    intro hcontra
    rcases List.append_eq_nil.mp hcontra with ⟨_, h2⟩
    rcases List.append_eq_nil.mp h2 with ⟨h3, _⟩
    exact py_lower_char_ne_nil c0 h3

theorem clean_core_head_not_digit (cs : List Char) (c : Char)
    (h : (clean_core cs).head? = some c) : py_isdigit c = false := by
  rcases hsplit : py_clean_chars cs with _ | ⟨c0, rest⟩
  · unfold clean_core at h
    rw [hsplit] at h
    simp at h
  · rw [clean_core_eq_of_split cs c0 rest hsplit] at h
    rcases hdig : py_isdigit c0 with hf | ht
    · rw [hdig, if_neg Bool.false_ne_true, List.nil_append, List.flatMap_cons,
        head_append_of_ne_nil _ _ (py_lower_char_ne_nil c0)] at h
      exact py_lower_char_head_not_digit c0 hdig c h
    · rw [hdig, if_pos rfl,
        show ("col_".data ++ c0 :: rest) = 'c' :: ('o' :: 'l' :: '_' :: c0 :: rest) from rfl,
        List.flatMap_cons, head_append_of_ne_nil _ _ (py_lower_char_ne_nil 'c'),
        show py_lower_char 'c' = ['c'] from by decide] at h
      simp at h
      rw [← h]
      decide

theorem clean_core_fixes (cs : List Char)
    (hall : ∀ c ∈ cs, sanitized_char c = true)
    (hhead : ∀ c, cs.head? = some c → py_isdigit c = false) :
    clean_core cs = cs := by
  have hfix := py_clean_chars_fixes cs hall
  rcases hsplit : py_clean_chars cs with _ | ⟨c0, rest⟩
  · unfold clean_core
    rw [hsplit]
    rw [hfix] at hsplit
    rw [hsplit]
  · have hc0 : py_isdigit c0 = false := by
      apply hhead
      rw [hfix] at hsplit
      rw [hsplit]
      rfl
    rw [clean_core_eq_of_split cs c0 rest hsplit, hc0, if_neg Bool.false_ne_true,
      List.nil_append]
    rw [hfix] at hsplit
    rw [← hsplit]
    apply list_bind_fix
    intro c hc
    exact sanitized_lower_fixes c (hall c hc)

-- ## String and substring helper lemmas

theorem string_mk_data (s : String) : String.mk s.data = s := rfl

theorem string_eq_empty_iff (s : String) : s = "" ↔ s.data = [] := by
  constructor
  · intro h
    rw [h]
  · intro h
    cases s with
    | mk d =>
        simp only [String.data] at h
        rw [h]

theorem isPrefixOf_append_self (l t : List Char) : l.isPrefixOf (l ++ t) = true := by
  induction l with
  | nil => simp [List.isPrefixOf]
  | cons c cs ih => simp [List.isPrefixOf, ih]

theorem list_has_sub_of_isPrefixOf (needle hay : List Char)
    (h : needle.isPrefixOf hay = true) : list_has_sub needle hay = true := by
  cases hay with
  | nil => simpa [list_has_sub] using h
  | cons c rest => simp [list_has_sub, h]

theorem list_has_sub_decomp (needle pre post : List Char) :
    list_has_sub needle (pre ++ needle ++ post) = true := by
  induction pre with
  | nil =>
      simp only [List.nil_append]
      exact list_has_sub_of_isPrefixOf _ _ (isPrefixOf_append_self needle post)
  | cons c pre' ih =>
      have hshape : (c :: pre') ++ needle ++ post = c :: (pre' ++ needle ++ post) := by simp
      rw [hshape]
      show (needle.isPrefixOf (c :: (pre' ++ needle ++ post))
          || list_has_sub needle (pre' ++ needle ++ post)) = true
      rw [ih]
      simp

theorem str_contains_sub_decomp (s needle : String) (pre post : List Char)
    (h : s.data = pre ++ needle.data ++ post) :
    str_contains_sub s needle = true := by
  unfold str_contains_sub
  rw [h]
  exact list_has_sub_decomp _ _ _

theorem list_has_sub_single (c : Char) (hay : List Char) :
    list_has_sub [c] hay = true ↔ c ∈ hay := by
  induction hay with
  | nil => simp [list_has_sub, List.isPrefixOf]
  | cons d rest ih =>
      simp [list_has_sub, List.isPrefixOf, ih]

theorem py_join_cons_cons (sep s t : String) (rest : List String) :
    py_join sep (s :: t :: rest) = s ++ sep ++ py_join sep (t :: rest) := rfl

theorem py_join_mem_decomp (sep col : String) (cols : List String) (h : col ∈ cols) :
    ∃ pre post : List Char, (py_join sep cols).data = pre ++ col.data ++ post := by
  induction cols with
  | nil => simp at h
  | cons s rest ih =>
      cases rest with
      | nil =>
          have hcol : col = s := by simpa using h
          refine ⟨[], [], ?_⟩
          rw [hcol]
          simp [py_join]
      | cons t rest2 =>
          rcases List.mem_cons.mp h with h1 | h2
          · refine ⟨[], (sep ++ py_join sep (t :: rest2)).data, ?_⟩
            rw [← h1, py_join_cons_cons]
            simp [String.data_append]
          · obtain ⟨pre, post, hp⟩ := ih h2
            refine ⟨(s ++ sep).data ++ pre, post, ?_⟩
            rw [py_join_cons_cons]
            simp [String.data_append, hp]

-- ## The repair loops as first-success over candidate lists

theorem first_success_append {α : Type} (run : Engine α) (conn : Conn) (xs ys : List String) :
    first_success run conn (xs ++ ys) =
      match first_success run conn xs with
      | some r => some r
      | none => first_success run conn ys := by
  induction xs with
  | nil => rfl
  | cons q qs ih =>
      simp only [List.cons_append, first_success]
      cases run q conn with
      | ok r => rfl
      | error e => exact ih

theorem try_space_cols_eq_first_success {α : Type} (run : Engine α) (conn : Conn)
    (q : String) (cols : List String) :
    try_space_cols run conn q cols =
      first_success run conn ((cols.filter (fun col => str_contains_sub col " ")).map
        (fun col => py_replace q ("\"" ++ col ++ "\"") (clean_column_name_total col))) := by
  induction cols with
  | nil => rfl
  | cons col rest ih =>
      rcases hc : str_contains_sub col " " with hf | ht
      · simp only [try_space_cols, List.filter_cons, hc]
        simpa using ih
      · simp only [try_space_cols, List.filter_cons, hc, if_true, List.map_cons, first_success]
        cases run (py_replace q ("\"" ++ col ++ "\"") (clean_column_name_total col)) conn with
        | ok r => rfl
        | error e => exact ih

theorem try_raw_predict_eq_first_success {α : Type} (run : Engine α) (conn : Conn)
    (q : String) (cols : List String) :
    try_raw_predict run conn q cols =
      first_success run conn ((cols.filter (fun col =>
          str_contains_sub (py_lower col) "raw" &&
            str_contains_sub (py_lower col) "predict")).map
        (fun col => py_replace q "\"raw predicted\"" ("\"" ++ col ++ "\""))) := by
  induction cols with
  | nil => rfl
  | cons col rest ih =>
      rcases hc : str_contains_sub (py_lower col) "raw" &&
          str_contains_sub (py_lower col) "predict" with hf | ht
      · simp only [try_raw_predict, List.filter_cons, hc]
        simpa using ih
      · simp only [try_raw_predict, List.filter_cons, hc, if_true, List.map_cons, first_success]
        cases run (py_replace q "\"raw predicted\"" ("\"" ++ col ++ "\"")) conn with
        | ok r => rfl
        | error e => exact ih

/-- The control flow of lines 70-106 as a first-success scan of the ordered
candidate list, falling back to the final enriched error. -/
theorem execute_query_refinement {α : Type} (run : Engine α) (conn : Conn) (q e : String)
    (h1 : run q conn = .error e)
    (h2 : str_contains_sub (py_lower e) "no such column" = true) :
    execute_query run conn q =
      match first_success run conn (repair_candidates conn.rel.cols q) with
      | some r => .ok r
      | none => .error (.exception (final_error_msg e conn.rel.cols)) := by
  unfold execute_query
  rw [h1]
  simp only [h2, if_true]
  rw [try_space_cols_eq_first_success, try_raw_predict_eq_first_success]
  unfold repair_candidates
  rw [List.append_assoc, List.singleton_append]
  simp only [first_success]
  cases run (py_replace q "\"" "`") conn with
  | ok r => rfl
  | error e1 =>
      rw [first_success_append]
      cases first_success run conn ((conn.rel.cols.filter
          (fun col => str_contains_sub col " ")).map
        (fun col => py_replace q ("\"" ++ col ++ "\"") (clean_column_name_total col))) with
      | some r => rfl
      | none =>
          cases first_success run conn ((conn.rel.cols.filter (fun col =>
              str_contains_sub (py_lower col) "raw" &&
                str_contains_sub (py_lower col) "predict")).map
            (fun col => py_replace q "\"raw predicted\"" ("\"" ++ col ++ "\""))) with
          | some r => rfl
          | none => rfl

-- ## Frame lemmas: a read-only engine leaves the connection unchanged

theorem try_space_cols_st_state {α : Type} (runst : EngineSt α)
    (hro : read_only_engine runst) (query : String) (cols : List String) (conn : Conn) :
    (try_space_cols_st runst query cols conn).2 = conn := by
  induction cols generalizing conn with
  | nil => rfl
  | cons col rest ih =>
      rcases hc : str_contains_sub col " " with hf | ht
      · simp only [try_space_cols_st, hc]
        simpa using ih conn
      · simp only [try_space_cols_st, hc, if_true]
        rcases hq : runst (py_replace query ("\"" ++ col ++ "\"")
            (clean_column_name_total col)) conn with ⟨e | r, conn1⟩
        · have hconn1 : conn1 = conn := by
            have hthis := hro (py_replace query ("\"" ++ col ++ "\"")
              (clean_column_name_total col)) conn
            rw [hq] at hthis
            exact hthis
          simp only [hq]
          rw [hconn1]
          exact ih conn
        · have hconn1 : conn1 = conn := by
            have hthis := hro (py_replace query ("\"" ++ col ++ "\"")
              (clean_column_name_total col)) conn
            rw [hq] at hthis
            exact hthis
          simp only [hq]
          exact hconn1

theorem try_raw_predict_st_state {α : Type} (runst : EngineSt α)
    (hro : read_only_engine runst) (query : String) (cols : List String) (conn : Conn) :
    (try_raw_predict_st runst query cols conn).2 = conn := by
  induction cols generalizing conn with
  | nil => rfl
  | cons col rest ih =>
      rcases hc : str_contains_sub (py_lower col) "raw" &&
          str_contains_sub (py_lower col) "predict" with hf | ht
      · simp only [try_raw_predict_st, hc]
        simpa using ih conn
      · simp only [try_raw_predict_st, hc, if_true]
        rcases hq : runst (py_replace query "\"raw predicted\""
            ("\"" ++ col ++ "\"")) conn with ⟨e | r, conn1⟩
        · have hconn1 : conn1 = conn := by
            have hthis := hro (py_replace query "\"raw predicted\"" ("\"" ++ col ++ "\"")) conn
            rw [hq] at hthis
            exact hthis
          simp only [hq]
          rw [hconn1]
          exact ih conn
        · have hconn1 : conn1 = conn := by
            have hthis := hro (py_replace query "\"raw predicted\"" ("\"" ++ col ++ "\"")) conn
            rw [hq] at hthis
            exact hthis
          simp only [hq]
          exact hconn1

theorem execute_query_st_state {α : Type} (runst : EngineSt α)
    (hro : read_only_engine runst) (conn : Conn) (query : String) :
    (execute_query_st runst conn query).2 = conn := by
  unfold execute_query_st
  rcases hq0 : runst query conn with ⟨e0 | r0, conn1⟩
  case mk.ok =>
      have hconn1 : conn1 = conn := by
        have hthis := hro query conn
        rw [hq0] at hthis
        exact hthis
      simp only [hq0]
      exact hconn1
  case mk.error =>
      have hconn1 : conn1 = conn := by
        have hthis := hro query conn
        rw [hq0] at hthis
        exact hthis
      simp only [hq0]
      rcases hcond : str_contains_sub (py_lower e0) "no such column" with hf | ht
      · simpa using hconn1
      · rw [if_pos rfl]
        rcases hq1 : runst (py_replace query "\"" "`") conn1 with ⟨e1 | r1, conn2⟩
        · have hconn2 : conn2 = conn1 := by
            have hthis := hro (py_replace query "\"" "`") conn1
            rw [hq1] at hthis
            exact hthis
          simp only [hq1]
          rcases hq2 : try_space_cols_st runst query conn1.rel.cols conn2 with ⟨or2 | r2, conn3⟩
          · have hconn3 : conn3 = conn2 := by
              have hthis := try_space_cols_st_state runst hro query conn1.rel.cols conn2
              rw [hq2] at hthis
              exact hthis
            simp only [hq2]
            rcases hq3 : try_raw_predict_st runst query conn1.rel.cols conn3 with ⟨or3 | r3, conn4⟩
            · have hconn4 : conn4 = conn3 := by
                have hthis := try_raw_predict_st_state runst hro query conn1.rel.cols conn3
                rw [hq3] at hthis
                exact hthis
              simp only [hq3]
              rw [hconn4, hconn3, hconn2, hconn1]
            · have hconn4 : conn4 = conn3 := by
                have hthis := try_raw_predict_st_state runst hro query conn1.rel.cols conn3
                rw [hq3] at hthis
                exact hthis
              simp only [hq3]
              rw [hconn4, hconn3, hconn2, hconn1]
          · have hconn3 : conn3 = conn2 := by
              have hthis := try_space_cols_st_state runst hro query conn1.rel.cols conn2
              rw [hq2] at hthis
              exact hthis
            simp only [hq2]
            rw [hconn3, hconn2, hconn1]
        · have hconn2 : conn2 = conn1 := by
            have hthis := hro (py_replace query "\"" "`") conn1
            rw [hq1] at hthis
            exact hthis
          simp only [hq1]
          rw [hconn2, hconn1]

-- ## Loader lemmas

theorem mapM_clean_mem (headers cols : List String)
    (h : headers.mapM clean_column_name = some cols) :
    ∀ col ∈ cols, ∃ hd, hd ∈ headers ∧ clean_column_name hd = some col := by
  induction headers generalizing cols with
  | nil =>
      rw [List.mapM_nil] at h
      cases h
      simp
  | cons hd rest ih =>
      rw [List.mapM_cons] at h
      cases hhd : clean_column_name hd with
      | none =>
          rw [hhd] at h
          simp at h
      | some b =>
          rw [hhd] at h
          cases hbs : rest.mapM clean_column_name with
          | none =>
              rw [hbs] at h
              simp at h
          | some bs =>
              rw [hbs] at h
              simp at h
              intro col hcol
              rw [← h] at hcol
              rcases List.mem_cons.mp hcol with h1 | h2
              · exact ⟨hd, List.mem_cons_self _ _, h1 ▸ hhd⟩
              · obtain ⟨hd2, hmem, hclean⟩ := ih bs hbs col h2
                exact ⟨hd2, List.mem_cons_of_mem _ hmem, hclean⟩

theorem create_cols_clean (csv : Csv) (conn : Conn)
    (h : create_database_from_csv csv = some conn) :
    ∀ col ∈ conn.rel.cols, ∃ hd, hd ∈ csv.headers ∧ clean_column_name hd = some col := by
  unfold create_database_from_csv at h
  cases hm : csv.headers.mapM clean_column_name with
  | none =>
      rw [hm] at h
      cases h
  | some cols =>
      rw [hm] at h
      cases h
      simpa using mapM_clean_mem csv.headers cols hm

theorem clean_column_name_some_data (s r : String) (h : clean_column_name s = some r) :
    r.data = clean_core s.data := by
  unfold clean_column_name at h
  by_cases hc : py_clean_chars s.data = []
  · simp [hc] at h
  · simp [hc] at h
    rw [← h]

theorem clean_output_no_space (s r : String) (h : clean_column_name s = some r) :
    str_contains_sub r " " = false := by
  have hdata := clean_column_name_some_data s r h
  rw [Bool.eq_false_iff]
  intro hcontra
  have hmem : ' ' ∈ r.data := by
    have hx : list_has_sub [' '] r.data = true := hcontra
    exact (list_has_sub_single ' ' r.data).mp hx
  rw [hdata] at hmem
  exact clean_core_no_space s.data ' ' hmem rfl

-- ## Claim theorems

/-- C2 counterexample: the claim quantifies over all raw column names, and it
fails in two ways.  On the empty name the sanitizer produces no output at all
(Python raises `IndexError` at the `clean_name[0]` digit check), so no output
exists to be non-empty or to match the regular expression.  On non-ASCII
names the output escapes `^[a-z0-9_]+$`: `'\u00C9'` is kept by `isalnum` and
lowercased to `"\u00E9"`, and `"\u0663x"` becomes `"col_\u0663x"` — the
`col_` prefix fires on a Unicode digit and the digit stays in the output —
both outside the regular expression's character class. -/
theorem claim_c2_counterexample :
    clean_column_name "" = none ∧
      clean_column_name "\u00C9" = some "\u00E9" ∧
      sanitized_char '\u00E9' = false ∧
      clean_column_name "\u0663x" = some "col_\u0663x" ∧
      sanitized_char '\u0663' = false := by decide

/-- C2 (amended to non-empty ASCII inputs): for every non-empty raw column
name consisting of ASCII characters the sanitizer succeeds, and its output is
non-empty, consists only of `[a-z0-9_]` characters, and does not start with a
digit; the literal `col_` prefix is prepended exactly when the cleaned name
would start with a digit. -/
theorem claim_c2_sanitizer_invariants (s : String) (hne : s ≠ "")
    (hascii : ∀ c ∈ s.data, c.toNat ≤ 127) :
    ∃ r, clean_column_name s = some r ∧ r ≠ "" ∧
      (∀ c ∈ r.data, sanitized_char c = true) ∧
      (∀ c, r.data.head? = some c → py_isdigit c = false) ∧
      (∀ c rest2, py_clean_chars s.data = c :: rest2 → py_isdigit c = true →
        r.data = "col_".data ++ (c :: rest2).map ascii_tolower) := by
  have hdne : s.data ≠ [] := fun hc => hne ((string_eq_empty_iff s).mpr hc)
  have hpc : py_clean_chars s.data ≠ [] := by
    intro hc
    have hlen := py_clean_chars_length s.data
    rw [hc] at hlen
    exact hdne (List.eq_nil_of_length_eq_zero hlen.symm)
  refine ⟨String.mk (clean_core s.data), ?_, ?_, ?_, ?_, ?_⟩
  · unfold clean_column_name
    simp [hpc]
  · intro hc
    have hcd : (String.mk (clean_core s.data)).data = [] := (string_eq_empty_iff _).mp hc
    simp only [String.data] at hcd
    exact clean_core_ne_nil s.data hdne hcd
  · intro c hc
    exact clean_core_sanitized s.data hascii c hc
  · intro c hc
    exact clean_core_head_not_digit s.data c hc
  · intro c rest2 hsplit hdig
    simp only [String.data]
    rw [clean_core_eq_of_split s.data c rest2 hsplit, hdig, if_pos rfl,
      List.flatMap_append]
    have hcol : "col_".data.flatMap py_lower_char = "col_".data := by decide
    rw [hcol]
    congr 1
    apply list_bind_lower_ascii
    intro d hd
    apply py_clean_chars_ascii s.data hascii
    rw [hsplit]
    exact hd

/-- C9: the two substitution passes replace characters one for one, so the
cleaned string has the length of the input and the index-0 digit check is in
bounds exactly when the input is non-empty: `clean_column_name` succeeds if
and only if its input is non-empty. -/
theorem claim_c9_totality (s : String) :
    (py_clean_chars s.data).length = s.data.length ∧
      ((clean_column_name s).isSome ↔ s ≠ "") := by
  constructor
  · exact py_clean_chars_length s.data
  · constructor
    · intro hsome hc
      rw [hc] at hsome
      exact absurd hsome (by decide)
    · intro hne
      have hdne : s.data ≠ [] := fun hc => hne ((string_eq_empty_iff s).mpr hc)
      have hpc : py_clean_chars s.data ≠ [] := by
        intro hc
        have hlen := py_clean_chars_length s.data
        rw [hc] at hlen
        exact hdne (List.eq_nil_of_length_eq_zero hlen.symm)
      unfold clean_column_name
      simp [hpc]

/-- C10 (amended to ASCII inputs): the sanitizer is idempotent on every ASCII
input it accepts — sanitizing an already-sanitized such name changes
nothing. -/
theorem claim_c10_idempotent (s r : String)
    (hascii : ∀ c ∈ s.data, c.toNat ≤ 127)
    (h : clean_column_name s = some r) :
    clean_column_name r = some r := by
  have hdata := clean_column_name_some_data s r h
  have hdne : s.data ≠ [] := by
    intro hc
    have hs : s = "" := (string_eq_empty_iff s).mpr hc
    rw [hs] at h
    exact Option.noConfusion h
  have hsan : ∀ c ∈ r.data, sanitized_char c = true := by
    rw [hdata]
    exact clean_core_sanitized s.data hascii
  have hhead : ∀ c, r.data.head? = some c → py_isdigit c = false := by
    rw [hdata]
    exact clean_core_head_not_digit s.data
  have hrne : r.data ≠ [] := by
    rw [hdata]
    exact clean_core_ne_nil s.data hdne
  have hfix : py_clean_chars r.data = r.data := py_clean_chars_fixes r.data hsan
  have hcfix : clean_core r.data = r.data := clean_core_fixes r.data hsan hhead
  unfold clean_column_name
  rw [hfix]
  simp only [hrne, if_false]
  rw [hcfix, string_mk_data]

/-- C10 counterexample: the sanitizer is not idempotent on all the non-empty
inputs it accepts — `'\u0130'` sanitizes to `"i\u0307"` (Unicode full
lowercasing of LATIN CAPITAL LETTER I WITH DOT ABOVE), but sanitizing
`"i\u0307"` gives `"i_"` (the combining dot above is not alphanumeric),
which differs. -/
theorem claim_c10_counterexample :
    clean_column_name "\u0130" = some "i\u0307" ∧
      clean_column_name "i\u0307" = some "i_" ∧
      ("i_" : String) ≠ "i\u0307" := by decide

/-- C10 witness: sanitizing the sanitizer's own output of "Passenger Class"
returns it unchanged. -/
theorem claim_c10_witness : clean_column_name "passenger_class" = some "passenger_class" :=
  claim_c10_idempotent "Passenger Class" "passenger_class" (by decide) (by decide)

/-- C2 witness: the amended invariants hold at the concrete raw name
"Passenger Class". -/
theorem claim_c2_witness :
    "Passenger Class" ≠ "" ∧ (∀ c ∈ "Passenger Class".data, c.toNat ≤ 127) ∧
      (∃ r, clean_column_name "Passenger Class" = some r ∧ r ≠ "" ∧
        (∀ c ∈ r.data, sanitized_char c = true) ∧
        (∀ c, r.data.head? = some c → py_isdigit c = false) ∧
        (∀ c rest2, py_clean_chars "Passenger Class".data = c :: rest2 → py_isdigit c = true →
          r.data = "col_".data ++ (c :: rest2).map ascii_tolower)) :=
  ⟨by decide, by decide,
    claim_c2_sanitizer_invariants "Passenger Class" (by decide) (by decide)⟩

/-- C7: loading the same parsed CSV twice produces the same relation — same
column list, same rows — and the raw-to-sanitized mapping of that CSV exists
and is the one association both loads share. -/
theorem claim_c7_load_deterministic (csv : Csv) (conn1 conn2 : Conn)
    (h1 : create_database_from_csv csv = some conn1)
    (h2 : create_database_from_csv csv = some conn2) :
    conn1.rel.cols = conn2.rel.cols ∧ conn1.rel.rows = conn2.rel.rows ∧
      conn1.rel.rows = csv.rows ∧ (column_mapping csv).isSome := by
  have h12 : conn1 = conn2 := by
    rw [h1] at h2
    exact Option.some.inj h2
  unfold create_database_from_csv at h1
  cases hm : csv.headers.mapM clean_column_name with
  | none =>
      rw [hm] at h1
      cases h1
  | some cols =>
      rw [hm] at h1
      cases h1
      refine ⟨by rw [h12], by rw [h12], rfl, ?_⟩
      unfold column_mapping
      rw [hm]
      rfl

/-- C7 witness: the determinism conjunction at the Titanic fixture. -/
theorem claim_c7_witness :
    titanic_conn.rel.cols = titanic_conn.rel.cols ∧
      titanic_conn.rel.rows = titanic_conn.rel.rows ∧
      titanic_conn.rel.rows = titanic_csv.rows ∧ (column_mapping titanic_csv).isSome :=
  claim_c7_load_deterministic titanic_csv titanic_conn titanic_conn (by decide) (by decide)

/-- C1: on a column-resolution failure, `execute_query` behaves exactly as the
first-success scan of the ordered candidate list — the backtick rewrite, then
one rewrite per stored column containing a space (in stored column order,
quoted occurrences replaced by the sanitized unquoted name), then one
`"raw predicted"` substitution per raw/predict column — with a later
candidate attempted only when every earlier one failed. -/
theorem claim_c1_repair_sequence {α : Type} (run : Engine α) (conn : Conn) (q e : String)
    (h1 : run q conn = .error e)
    (h2 : str_contains_sub (py_lower e) "no such column" = true) :
    execute_query run conn q =
      match first_success run conn (repair_candidates conn.rel.cols q) with
      | some r => .ok r
      | none => .error (.exception (final_error_msg e conn.rel.cols)) :=
  execute_query_refinement run conn q e h1 h2

/-- C1 witness: the refinement instantiated with a concrete engine whose every
call reports a missing column. -/
theorem claim_c1_witness :
    always_missing_engine "SELECT x FROM data" titanic_conn = .error "no such column: zzz" ∧
      str_contains_sub (py_lower "no such column: zzz") "no such column" = true ∧
      execute_query always_missing_engine titanic_conn "SELECT x FROM data" =
        match first_success always_missing_engine titanic_conn
            (repair_candidates titanic_conn.rel.cols "SELECT x FROM data") with
        | some r => .ok r
        | none => .error (.exception (final_error_msg "no such column: zzz" titanic_conn.rel.cols)) :=
  ⟨rfl, by decide,
    claim_c1_repair_sequence always_missing_engine titanic_conn "SELECT x FROM data"
      "no such column: zzz" rfl (by decide)⟩

/-- C5: when every repair candidate fails, `execute_query` raises the final
failure, and its message embeds the original engine error text as well as
every actual column name of the relation. -/
theorem claim_c5_final_error_embeds {α : Type} (run : Engine α) (conn : Conn) (q e : String)
    (h1 : run q conn = .error e)
    (h2 : str_contains_sub (py_lower e) "no such column" = true)
    (h3 : first_success run conn (repair_candidates conn.rel.cols q) = none) :
    execute_query run conn q = .error (.exception (final_error_msg e conn.rel.cols)) ∧
      str_contains_sub (final_error_msg e conn.rel.cols) e = true ∧
      (∀ col ∈ conn.rel.cols, str_contains_sub (final_error_msg e conn.rel.cols) col = true) := by
  refine ⟨?_, ?_, ?_⟩
  · rw [execute_query_refinement run conn q e h1 h2, h3]
  · apply str_contains_sub_decomp _ _ "Query error: ".data
      ("\n\nAvailable columns: " ++ py_join ", " conn.rel.cols).data
    simp [final_error_msg, String.data_append, List.append_assoc]
  · intro col hcol
    obtain ⟨pre, post, hp⟩ := py_join_mem_decomp ", " col conn.rel.cols hcol
    apply str_contains_sub_decomp _ _
      (("Query error: " ++ e ++ "\n\nAvailable columns: ").data ++ pre) post
    simp [final_error_msg, String.data_append, hp, List.append_assoc]

/-- C5 witness: the enriched failure at a concrete all-failing engine. -/
theorem claim_c5_witness :
    always_missing_engine "SELECT y FROM data" titanic_conn = .error "no such column: zzz" ∧
      first_success always_missing_engine titanic_conn
        (repair_candidates titanic_conn.rel.cols "SELECT y FROM data") = none ∧
      execute_query always_missing_engine titanic_conn "SELECT y FROM data" =
        .error (.exception (final_error_msg "no such column: zzz" titanic_conn.rel.cols)) ∧
      str_contains_sub (final_error_msg "no such column: zzz" titanic_conn.rel.cols)
        "no such column: zzz" = true :=
  ⟨rfl, by decide,
    (claim_c5_final_error_embeds always_missing_engine titanic_conn "SELECT y FROM data"
      "no such column: zzz" rfl (by decide) (by decide)).1,
    (claim_c5_final_error_embeds always_missing_engine titanic_conn "SELECT y FROM data"
      "no such column: zzz" rfl (by decide) (by decide)).2.1⟩

/-- C3 (code behavior at the failing input): on an error that does not mention
"no such column", no repair is attempted, but the raised failure is Python's
`UnboundLocalError` for `actual_columns` — the engine's original error text is
not carried by it, contradicting the claim's second half. -/
theorem claim_c3_unbound_local :
    execute_query syntax_error_engine titanic_conn "SELEC * FROM data" =
      .error (.unboundLocal "actual_columns") := rfl

/-- C4 (code behavior at the failing input): with the relation loaded from raw
header "Passenger Class" (stored column `passenger_class`), the query
`SELECT "Passenger Class" FROM data` is not repaired by strategy 2 — the
strategy-2 loop produces nothing because no stored column contains a space —
and `execute_query` raises the final repair failure instead of returning the
values of `SELECT passenger_class FROM data`. -/
theorem claim_c4_strategy2_dead :
    create_database_from_csv titanic_csv = some titanic_conn ∧
      execute_query mini_run titanic_conn "SELECT passenger_class FROM data" =
        .ok ["1", "3", "2"] ∧
      try_space_cols mini_run titanic_conn "SELECT \"Passenger Class\" FROM data"
        titanic_conn.rel.cols = none ∧
      execute_query mini_run titanic_conn "SELECT \"Passenger Class\" FROM data" =
        .error (.exception (final_error_msg "no such column: Passenger Class"
          titanic_conn.rel.cols)) := ⟨rfl, rfl, rfl, rfl⟩

/-- C6: with a read-only engine — every SELECT and pragma the function issues
is a read — `execute_query` leaves the connection, hence the relation's column
list and row data, exactly as it found them, whether it succeeds or fails. -/
theorem claim_c6_no_mutation {α : Type} (runst : EngineSt α) (conn : Conn) (query : String)
    (hro : read_only_engine runst) :
    (execute_query_st runst conn query).2 = conn ∧
      ((execute_query_st runst conn query).2).rel.cols = conn.rel.cols ∧
      ((execute_query_st runst conn query).2).rel.rows = conn.rel.rows := by
  have h := execute_query_st_state runst hro conn query
  exact ⟨h, by rw [h], by rw [h]⟩

/-- C6 witness: the frame property at a concrete read-only engine. -/
theorem claim_c6_witness :
    (execute_query_st ro_engine titanic_conn "SELECT x FROM data").2 = titanic_conn ∧
      ((execute_query_st ro_engine titanic_conn "SELECT x FROM data").2).rel.cols =
        titanic_conn.rel.cols ∧
      ((execute_query_st ro_engine titanic_conn "SELECT x FROM data").2).rel.rows =
        titanic_conn.rel.rows :=
  claim_c6_no_mutation ro_engine titanic_conn "SELECT x FROM data" (fun _ _ => rfl)

/-- C8: every column of a relation built by `create_database_from_csv` went
through `clean_column_name`, so none contains a space; consequently repair
strategy 2 selects no column, generates no rewritten query, and returns
nothing for any engine and any query. -/
theorem claim_c8_strategy2_inactive (csv : Csv) (conn : Conn)
    (h : create_database_from_csv csv = some conn) :
    (∀ col ∈ conn.rel.cols, str_contains_sub col " " = false) ∧
      conn.rel.cols.filter (fun col => str_contains_sub col " ") = [] ∧
      (∀ query : String,
        (conn.rel.cols.filter (fun col => str_contains_sub col " ")).map
          (fun col => py_replace query ("\"" ++ col ++ "\"") (clean_column_name_total col)) = []) ∧
      (∀ (α : Type) (run : Engine α) (query : String),
        try_space_cols run conn query conn.rel.cols = none) := by
  have hnospace : ∀ col ∈ conn.rel.cols, str_contains_sub col " " = false := by
    intro col hcol
    obtain ⟨hd, _, hclean⟩ := create_cols_clean csv conn h col hcol
    exact clean_output_no_space hd col hclean
  have hfilter : conn.rel.cols.filter (fun col => str_contains_sub col " ") = [] := by
    rw [List.filter_eq_nil_iff]
    intro col hcol
    simp [hnospace col hcol]
  refine ⟨hnospace, hfilter, ?_, ?_⟩
  · intro query
    rw [hfilter]
    rfl
  · intro α run query
    rw [try_space_cols_eq_first_success, hfilter]
    rfl

/-- C8 witness: strategy 2 is inactive on the Titanic fixture. -/
theorem claim_c8_witness :
    try_space_cols mini_run titanic_conn "SELECT x FROM data" titanic_conn.rel.cols = none :=
  (claim_c8_strategy2_inactive titanic_csv titanic_conn (by decide)).2.2.2
    (List String) mini_run "SELECT x FROM data"
